import Mathlib

/-!
Verification of the band-index computation in the odc-sandbox-notebooks
repository (`calculate_band_indices` in
`src/Landsat8_Level1_Level2_Comparison.ipynb`).

The embedding models a floating-point sample as an extended rational:
either a finite rational value, a signed infinity, or a not-a-number
value, with arithmetic following the IEEE-754 conventions the platform
(numpy/xarray) applies elementwise.  Rationals stand in for the finite
floats; signed zero is not modelled (a zero denominator with positive
numerator yields the positive infinity).  A band is a list of slices
(rows, or time slices), each a list of samples; a raster stack is an
association list from layer names to bands, with assignment semantics
matching a Python mapping: overwrite in place if the key exists,
append otherwise.
-/

/-- A floating-point sample value: finite rational, signed infinity, or
not-a-number. -/
inductive EVal where
  | fin (q : ℚ)
  | posInf
  | negInf
  | nan
deriving DecidableEq, Repr

namespace EVal

/-- IEEE-style addition on sample values. -/
def add : EVal → EVal → EVal
  | fin a, fin b => fin (a + b)
  | fin _, posInf => posInf
  | fin _, negInf => negInf
  | posInf, fin _ => posInf
  | negInf, fin _ => negInf
  | posInf, posInf => posInf
  | negInf, negInf => negInf
  | posInf, negInf => nan
  | negInf, posInf => nan
  | _, _ => nan

/-- IEEE-style subtraction on sample values. -/
def sub : EVal → EVal → EVal
  | fin a, fin b => fin (a - b)
  | fin _, posInf => negInf
  | fin _, negInf => posInf
  | posInf, fin _ => posInf
  | negInf, fin _ => negInf
  | posInf, negInf => posInf
  | negInf, posInf => negInf
  | _, _ => nan

/-- IEEE-style division on sample values: a zero denominator with a
nonzero numerator gives a signed infinity, zero over zero gives
not-a-number (signed zero is not modelled, so the nonnegative-numerator
infinity is the positive one). -/
def div : EVal → EVal → EVal
  | fin a, fin b =>
      if b ≠ 0 then fin (a / b)
      else if 0 < a then posInf
      else if a < 0 then negInf
      else nan
  | fin _, posInf => fin 0
  | fin _, negInf => fin 0
  | posInf, fin b => if 0 ≤ b then posInf else negInf
  | negInf, fin b => if 0 ≤ b then negInf else posInf
  | _, _ => nan

/-- A sample value is a finite rational in the closed interval [-1, 1]. -/
def inUnitInterval : EVal → Prop
  | fin q => -1 ≤ q ∧ q ≤ 1
  | _ => False

/-- A sample value is a finite nonnegative rational (a physically valid
reflectance sample). -/
def finNonneg : EVal → Prop
  | fin q => 0 ≤ q
  | _ => False

/-- A sample value is one of the division-by-zero outcomes: a signed
infinity or not-a-number. -/
def nonFinite : EVal → Prop
  | fin _ => False
  | _ => True

end EVal

/-- A band: a list of slices (rows, or time slices), each a list of
samples. -/
abbrev Band := List (List EVal)

/-- Elementwise combination of two bands. -/
def map2 (f : EVal → EVal → EVal) (a b : Band) : Band :=
  List.zipWith (List.zipWith f) a b

/-- Elementwise band addition. -/
def bandAdd : Band → Band → Band := map2 EVal.add

/-- Elementwise band subtraction. -/
def bandSub : Band → Band → Band := map2 EVal.sub

/-- Elementwise band division. -/
def bandDiv : Band → Band → Band := map2 EVal.div

/-- The shape of a band: the length of each slice, in order. -/
def shape (b : Band) : List Nat := b.map List.length

/-- The sample of a band at slice `i`, position `j`. -/
def sample (b : Band) (i j : Nat) : Option EVal :=
  (b.get? i).bind fun row => row.get? j

/-- Every sample of the band satisfies `p`. -/
def allSamples (p : EVal → Prop) (b : Band) : Prop :=
  ∀ row ∈ b, ∀ v ∈ row, p v

/-- The normalized-difference formula applied to two bands, exactly as
each line of `calculate_band_indices` computes it:
`(a - b) / (a + b)` elementwise. -/
def indexFormula (a b : Band) : Band :=
  bandDiv (bandSub a b) (bandAdd a b)

/-- A raster stack: named layers, in insertion order. -/
abbrev Stack := List (String × Band)

/-- Look a layer up by name (first occurrence). -/
def getBand : Stack → String → Option Band
  | [], _ => none
  | (k, v) :: rest, n => if k = n then some v else getBand rest n

/-- Assign a layer, Python-mapping style: overwrite in place when the
name exists, append otherwise. -/
def setBand : Stack → String → Band → Stack
  | [], n, v => [(n, v)]
  | (k, w) :: rest, n, v =>
      if k = n then (n, v) :: rest else (k, w) :: setBand rest n v

/-- The error conditions of the index-computation contract. -/
inductive IndexError where
  | missingBand (band : String)
  | shapeMismatch (bandA bandB : String)
deriving DecidableEq, Repr

/-- Embedding of `calculate_band_indices` from
`Landsat8_Level1_Level2_Comparison.ipynb`:

    def calculate_band_indices(dc):
        dc['ndvi'] = (dc.nir - dc.red)/(dc.nir + dc.red)
        dc['ndwi'] = (dc.green - dc.nir)/(dc.green + dc.nir)
        dc['mndwi'] = (dc.green - dc.swir1)/(dc.nir + dc.swir1)
        return(dc)

The three assignments run in order and mutate `dc` in place; an
attribute access to an absent band raises, aborting the call but
keeping the layers already assigned.  The result pairs the (possibly
partially updated) stack with the error, if any; band accesses are
resolved in the source's evaluation order, so the error names the
first absent band accessed. -/
def calculate_band_indices (dc : Stack) : Stack × Option IndexError :=
  match getBand dc "nir", getBand dc "red" with
  | none, _ => (dc, some (IndexError.missingBand "nir"))
  | some _, none => (dc, some (IndexError.missingBand "red"))
  | some nir, some red =>
    let dc1 := setBand dc "ndvi" (indexFormula nir red)
    match getBand dc1 "green", getBand dc1 "nir" with
    | none, _ => (dc1, some (IndexError.missingBand "green"))
    | some _, none => (dc1, some (IndexError.missingBand "nir"))
    | some green, some nir1 =>
      let dc2 := setBand dc1 "ndwi" (indexFormula green nir1)
      match getBand dc2 "green", getBand dc2 "swir1", getBand dc2 "nir" with
      | none, _, _ => (dc2, some (IndexError.missingBand "green"))
      | some _, none, _ => (dc2, some (IndexError.missingBand "swir1"))
      | some _, some _, none => (dc2, some (IndexError.missingBand "nir"))
      | some green2, some swir1, some nir2 =>
        (setBand dc2 "mndwi" (bandDiv (bandSub green2 swir1) (bandAdd nir2 swir1)),
         none)

/-- Modelled from the spec: the source notebook defines only
`calculate_band_indices`, with fixed band pairs and no explicit
validation; the generic `computeIndex(stack, indexName, bandA, bandB)`
of spec §4.1, with its eager MissingBand and ShapeMismatch checks, has
no counterpart under `src/`, so it is taken from the spec's words. -/
def computeIndex (stack : Stack) (indexName bandA bandB : String) :
    Except IndexError Stack :=
  match getBand stack bandA with
  | none => Except.error (IndexError.missingBand bandA)
  | some a =>
    match getBand stack bandB with
    | none => Except.error (IndexError.missingBand bandB)
    | some b =>
      if shape a = shape b then
        Except.ok (setBand stack indexName (indexFormula a b))
      else
        Except.error (IndexError.shapeMismatch bandA bandB)

/-! ### Association-map lemmas for `getBand` and `setBand` -/

theorem getBand_setBand_self (s : Stack) (n : String) (v : Band) :
    getBand (setBand s n v) n = some v := by
  induction s with
  | nil => simp [getBand, setBand]
  | cons p rest ih =>
      obtain ⟨k, w⟩ := p
      by_cases h : k = n <;> simp [getBand, setBand, h, ih]

theorem getBand_setBand_ne {n k : String} (h : k ≠ n) (s : Stack) (v : Band) :
    getBand (setBand s n v) k = getBand s k := by
  induction s with
  | nil => simp [getBand, setBand, Ne.symm h]
  | cons p rest ih =>
      obtain ⟨k0, w⟩ := p
      by_cases h0 : k0 = n
      · subst h0
        simp [getBand, setBand, Ne.symm h]
      · simp [getBand, setBand, h0, ih]

theorem setBand_setBand_self (s : Stack) (n : String) (v w : Band) :
    setBand (setBand s n v) n w = setBand s n w := by
  induction s with
  | nil => simp [setBand]
  | cons p rest ih =>
      obtain ⟨k0, w0⟩ := p
      by_cases h : k0 = n <;> simp [setBand, h, ih]

/-! ### Elementwise lemmas for bands -/

theorem zipWith_pair {α β γ δ ε : Type _} (f : γ → δ → ε) (g : α → β → γ)
    (h : α → β → δ) :
    ∀ (a : List α) (b : List β),
      List.zipWith f (List.zipWith g a b) (List.zipWith h a b)
        = List.zipWith (fun x y => f (g x y) (h x y)) a b
  | [], _ => by simp
  | _ :: _, [] => by simp
  | x :: a, y :: b => by
      simp only [List.zipWith_cons_cons]
      exact congrArg _ (zipWith_pair f g h a b)

theorem indexFormula_eq_map2 (a b : Band) :
    indexFormula a b
      = map2 (fun x y => EVal.div (EVal.sub x y) (EVal.add x y)) a b := by
  unfold indexFormula bandDiv bandSub bandAdd map2
  rw [zipWith_pair]
  congr 1
  funext r s
  rw [zipWith_pair]

theorem shape_map2 (f : EVal → EVal → EVal) :
    ∀ (a b : Band), shape a = shape b → shape (map2 f a b) = shape a
  | [], [], _ => by simp [map2]
  | [], _ :: _, h => by simp [shape] at h
  | _ :: _, [], h => by simp [shape] at h
  | x :: a, y :: b, h => by
      simp only [shape, List.map_cons, List.cons.injEq] at h
      simp only [map2, List.zipWith_cons_cons, shape, List.map_cons,
        List.length_zipWith, h.1, min_self, List.cons.injEq, true_and]
      exact shape_map2 f a b h.2

theorem sample_map2 (f : EVal → EVal → EVal) (a b : Band) (i j : Nat)
    (x y : EVal) (ha : sample a i j = some x) (hb : sample b i j = some y) :
    sample (map2 f a b) i j = some (f x y) := by
  unfold sample at ha hb ⊢
  rcases Option.bind_eq_some.mp ha with ⟨ra, hra, hx⟩
  rcases Option.bind_eq_some.mp hb with ⟨rb, hrb, hy⟩
  unfold map2
  have hrow : (List.zipWith (List.zipWith f) a b).get? i
      = some (List.zipWith f ra rb) := by
    rw [List.get?_zipWith']
    simp [← List.get?_eq_getElem?, hra, hrb]
  simp only [hrow, Option.some_bind]
  rw [List.get?_zipWith']
  simp [← List.get?_eq_getElem?, hx, hy]

theorem zipWith_forall_rel {α β γ δ : Type _} (f : α → β → γ) (g : α → β → δ)
    (Pa : α → Prop) (Pb : β → Prop) (S : δ → Prop) (R : γ → Prop)
    (hpt : ∀ x y, Pa x → Pb y → S (g x y) → R (f x y)) :
    ∀ (a : List α) (b : List β), (∀ x ∈ a, Pa x) → (∀ y ∈ b, Pb y) →
      (∀ d ∈ List.zipWith g a b, S d) → ∀ v ∈ List.zipWith f a b, R v
  | [], _, _, _, _ => by simp
  | _ :: _, [], _, _, _ => by simp
  | x :: a, y :: b, hA, hB, hS => by
      intro v hv
      simp only [List.zipWith_cons_cons, List.mem_cons] at hv
      rcases hv with h | h
      · subst h
        exact hpt x y (hA x (List.mem_cons_self x a)) (hB y (List.mem_cons_self y b))
          (hS (g x y) (by simp))
      · exact zipWith_forall_rel f g Pa Pb S R hpt a b
          (fun z hz => hA z (List.mem_cons_of_mem _ hz))
          (fun z hz => hB z (List.mem_cons_of_mem _ hz))
          (fun d hd => hS d (List.mem_cons_of_mem _ hd)) v h

theorem map2_allSamples (f g : EVal → EVal → EVal) (Pa Pb S R : EVal → Prop)
    (hpt : ∀ x y, Pa x → Pb y → S (g x y) → R (f x y)) (a b : Band)
    (hA : allSamples Pa a) (hB : allSamples Pb b)
    (hS : allSamples S (map2 g a b)) : allSamples R (map2 f a b) := by
  unfold allSamples at hA hB hS ⊢
  unfold map2 at hS ⊢
  exact zipWith_forall_rel (List.zipWith f) (List.zipWith g)
    (fun row => ∀ v ∈ row, Pa v) (fun row => ∀ v ∈ row, Pb v)
    (fun row => ∀ v ∈ row, S v) (fun row => ∀ v ∈ row, R v)
    (fun rx ry hx hy hs => zipWith_forall_rel f g Pa Pb S R hpt rx ry hx hy hs)
    a b hA hB hS

/-! ### Pointwise arithmetic facts about the normalized-difference sample -/

theorem unit_interval_pointwise (x y : EVal) (hx : EVal.finNonneg x)
    (hy : EVal.finNonneg y) (hs : EVal.add x y ≠ EVal.fin 0) :
    EVal.inUnitInterval (EVal.div (EVal.sub x y) (EVal.add x y)) := by
  cases x with
  | fin p =>
      cases y with
      | fin q =>
          simp only [EVal.finNonneg] at hx hy
          have hpq : p + q ≠ 0 := by
            intro hc
            exact hs (by simp [EVal.add, hc])
          have hpos : 0 < p + q := lt_of_le_of_ne (by linarith) (Ne.symm hpq)
          simp only [EVal.add, EVal.sub, EVal.div, ne_eq, hpq,
            not_false_eq_true, if_true, EVal.inUnitInterval]
          constructor
          · rw [neg_le, ← neg_div, div_le_one hpos]
            linarith
          · rw [div_le_one hpos]
            linarith
      | posInf => simp [EVal.finNonneg] at hy
      | negInf => simp [EVal.finNonneg] at hy
      | nan => simp [EVal.finNonneg] at hy
  | posInf => simp [EVal.finNonneg] at hx
  | negInf => simp [EVal.finNonneg] at hx
  | nan => simp [EVal.finNonneg] at hx

theorem zero_sum_pointwise (x y : EVal) (h : EVal.add x y = EVal.fin 0) :
    EVal.nonFinite (EVal.div (EVal.sub x y) (EVal.add x y)) := by
  cases x with
  | fin p =>
      cases y with
      | fin q =>
          have hpq : p + q = 0 := by
            simpa [EVal.add] using h
          simp only [EVal.add, EVal.sub, EVal.div, hpq, ne_eq,
            not_true_eq_false, if_false]
          split
          · simp [EVal.nonFinite]
          · split <;> simp [EVal.nonFinite]
      | posInf => simp [EVal.add] at h
      | negInf => simp [EVal.add] at h
      | nan => simp [EVal.add] at h
  | posInf => cases y <;> simp [EVal.add] at h
  | negInf => cases y <;> simp [EVal.add] at h
  | nan => cases y <;> simp [EVal.add] at h

theorem equal_band_pointwise (q : ℚ) (hq : q ≠ 0) :
    EVal.div (EVal.sub (EVal.fin q) (EVal.fin q))
      (EVal.add (EVal.fin q) (EVal.fin q)) = EVal.fin 0 := by
  have h2 : q + q ≠ 0 := fun hc => hq (by linarith)
  simp [EVal.sub, EVal.add, EVal.div, h2]

/-! ### Behaviour of `calculate_band_indices` -/

theorem calculate_band_indices_success (dc : Stack) (nir red green swir1 : Band)
    (hn : getBand dc "nir" = some nir) (hr : getBand dc "red" = some red)
    (hg : getBand dc "green" = some green)
    (hs : getBand dc "swir1" = some swir1) :
    calculate_band_indices dc =
      (setBand (setBand (setBand dc "ndvi" (indexFormula nir red)) "ndwi"
        (indexFormula green nir)) "mndwi"
        (bandDiv (bandSub green swir1) (bandAdd nir swir1)), none) := by
  unfold calculate_band_indices
  simp +decide only [getBand_setBand_ne, hn, hr, hg, hs]

theorem calculate_band_indices_ndvi (dc : Stack) (nir red : Band)
    (hn : getBand dc "nir" = some nir) (hr : getBand dc "red" = some red) :
    getBand (calculate_band_indices dc).1 "ndvi"
      = some (indexFormula nir red) := by
  unfold calculate_band_indices
  simp only [hn, hr]
  split
  · simp +decide only [getBand_setBand_ne, getBand_setBand_self]
  · simp +decide only [getBand_setBand_ne, getBand_setBand_self]
  · split <;> simp +decide only [getBand_setBand_ne, getBand_setBand_self]

theorem calculate_band_indices_ndwi (dc : Stack) (nir red green : Band)
    (hn : getBand dc "nir" = some nir) (hr : getBand dc "red" = some red)
    (hg : getBand dc "green" = some green) :
    getBand (calculate_band_indices dc).1 "ndwi"
      = some (indexFormula green nir) := by
  unfold calculate_band_indices
  simp +decide only [getBand_setBand_ne, hn, hr, hg]
  split <;> simp +decide only [getBand_setBand_ne, getBand_setBand_self]

theorem allSamples_singleton (P : EVal → Prop) (v : EVal) (h : P v) :
    allSamples P [[v]] := by
  intro row hrow w hw
  simp only [List.mem_singleton] at hrow
  subst hrow
  simp only [List.mem_singleton] at hw
  subst hw
  exact h

/-! ### Claim C1 -/

/-- C1 as stated is false: on a stack with `nir`, `red`, `green` but no
`swir1`, `calculate_band_indices` fails with MissingBand "swir1", yet the
`ndvi` and `ndwi` layers HAVE been attached by the time of the failure —
the first two assignments mutate the stack before the third line touches
`swir1`. -/
theorem calculate_band_indices_not_atomic :
    (calculate_band_indices [("nir", [[EVal.fin 1]]), ("red", [[EVal.fin 2]]),
        ("green", [[EVal.fin 3]])]).2
      = some (IndexError.missingBand "swir1") ∧
    getBand (calculate_band_indices [("nir", [[EVal.fin 1]]),
        ("red", [[EVal.fin 2]]), ("green", [[EVal.fin 3]])]).1 "ndvi" ≠ none ∧
    getBand (calculate_band_indices [("nir", [[EVal.fin 1]]),
        ("red", [[EVal.fin 2]]), ("green", [[EVal.fin 3]])]).1 "ndwi" ≠ none := by
  decide

/-- C1 (amended): for every stack in which a required band is absent,
`calculate_band_indices` fails with MissingBand naming the first absent
band in the source's access order (`nir`, `red`, `green`, `swir1`), but
attachment is not atomic: the layers assigned before the failing access
remain attached.  Missing `nir` or `red` leaves the stack unchanged;
missing `green` (with `nir`, `red` present) leaves `ndvi` attached;
missing `swir1` (with `nir`, `red`, `green` present) leaves `ndvi` and
`ndwi` attached, with `mndwi` unchanged. -/
theorem calculate_band_indices_missing_band (dc : Stack) :
    (getBand dc "nir" = none →
      calculate_band_indices dc = (dc, some (IndexError.missingBand "nir"))) ∧
    (∀ nir, getBand dc "nir" = some nir → getBand dc "red" = none →
      calculate_band_indices dc = (dc, some (IndexError.missingBand "red"))) ∧
    (∀ nir red, getBand dc "nir" = some nir → getBand dc "red" = some red →
      getBand dc "green" = none →
      (calculate_band_indices dc).2 = some (IndexError.missingBand "green") ∧
      getBand (calculate_band_indices dc).1 "ndvi"
        = some (indexFormula nir red) ∧
      getBand (calculate_band_indices dc).1 "ndwi" = getBand dc "ndwi" ∧
      getBand (calculate_band_indices dc).1 "mndwi" = getBand dc "mndwi") ∧
    (∀ nir red green, getBand dc "nir" = some nir →
      getBand dc "red" = some red → getBand dc "green" = some green →
      getBand dc "swir1" = none →
      (calculate_band_indices dc).2 = some (IndexError.missingBand "swir1") ∧
      getBand (calculate_band_indices dc).1 "ndvi"
        = some (indexFormula nir red) ∧
      getBand (calculate_band_indices dc).1 "ndwi"
        = some (indexFormula green nir) ∧
      getBand (calculate_band_indices dc).1 "mndwi" = getBand dc "mndwi") := by
  refine ⟨fun hn => ?_, fun nir hn hr => ?_, fun nir red hn hr hg => ?_,
    fun nir red green hn hr hg hs => ?_⟩
  · unfold calculate_band_indices
    simp only [hn]
  · unfold calculate_band_indices
    simp only [hn, hr]
  · unfold calculate_band_indices
    simp +decide only [getBand_setBand_ne, getBand_setBand_self, hn, hr, hg]
  · unfold calculate_band_indices
    simp +decide only [getBand_setBand_ne, getBand_setBand_self, hn, hr, hg, hs]

/-- Witness for C1's amended theorem: one concrete stack per
missing-band case. -/
theorem calculate_band_indices_missing_band_witness :
    calculate_band_indices [("red", [[EVal.fin 1]])]
      = ([("red", [[EVal.fin 1]])], some (IndexError.missingBand "nir")) ∧
    calculate_band_indices [("nir", [[EVal.fin 2]])]
      = ([("nir", [[EVal.fin 2]])], some (IndexError.missingBand "red")) ∧
    ((calculate_band_indices [("nir", [[EVal.fin 2]]),
        ("red", [[EVal.fin 1]])]).2
      = some (IndexError.missingBand "green") ∧
     getBand (calculate_band_indices [("nir", [[EVal.fin 2]]),
        ("red", [[EVal.fin 1]])]).1 "ndvi"
      = some (indexFormula [[EVal.fin 2]] [[EVal.fin 1]]) ∧
     getBand (calculate_band_indices [("nir", [[EVal.fin 2]]),
        ("red", [[EVal.fin 1]])]).1 "ndwi"
      = getBand [("nir", [[EVal.fin 2]]), ("red", [[EVal.fin 1]])] "ndwi" ∧
     getBand (calculate_band_indices [("nir", [[EVal.fin 2]]),
        ("red", [[EVal.fin 1]])]).1 "mndwi"
      = getBand [("nir", [[EVal.fin 2]]), ("red", [[EVal.fin 1]])] "mndwi") ∧
    ((calculate_band_indices [("nir", [[EVal.fin 2]]), ("red", [[EVal.fin 1]]),
        ("green", [[EVal.fin 3]])]).2
      = some (IndexError.missingBand "swir1") ∧
     getBand (calculate_band_indices [("nir", [[EVal.fin 2]]),
        ("red", [[EVal.fin 1]]), ("green", [[EVal.fin 3]])]).1 "ndvi"
      = some (indexFormula [[EVal.fin 2]] [[EVal.fin 1]]) ∧
     getBand (calculate_band_indices [("nir", [[EVal.fin 2]]),
        ("red", [[EVal.fin 1]]), ("green", [[EVal.fin 3]])]).1 "ndwi"
      = some (indexFormula [[EVal.fin 3]] [[EVal.fin 2]]) ∧
     getBand (calculate_band_indices [("nir", [[EVal.fin 2]]),
        ("red", [[EVal.fin 1]]), ("green", [[EVal.fin 3]])]).1 "mndwi"
      = getBand [("nir", [[EVal.fin 2]]), ("red", [[EVal.fin 1]]),
        ("green", [[EVal.fin 3]])] "mndwi") :=
  ⟨(calculate_band_indices_missing_band [("red", [[EVal.fin 1]])]).1 rfl,
   (calculate_band_indices_missing_band [("nir", [[EVal.fin 2]])]).2.1
     [[EVal.fin 2]] rfl rfl,
   (calculate_band_indices_missing_band [("nir", [[EVal.fin 2]]),
       ("red", [[EVal.fin 1]])]).2.2.1
     [[EVal.fin 2]] [[EVal.fin 1]] rfl rfl rfl,
   (calculate_band_indices_missing_band [("nir", [[EVal.fin 2]]),
       ("red", [[EVal.fin 1]]), ("green", [[EVal.fin 3]])]).2.2.2
     [[EVal.fin 2]] [[EVal.fin 1]] [[EVal.fin 3]] rfl rfl rfl rfl⟩

/-! ### Claim C2 -/

/-- C2: for every stack containing bands `nir` and `red` of identical
shape, the `ndvi` layer attached by `calculate_band_indices` equals
elementwise `(nir - red) / (nir + red)` at every slice and sample
position; in particular, samples `0.5` and `0.1` give `2/3`, which is
within `1e-4` of `0.6667`. -/
theorem ndvi_matches_spec (dc : Stack) (nir red : Band)
    (hn : getBand dc "nir" = some nir) (hr : getBand dc "red" = some red)
    (hsh : shape nir = shape red) :
    getBand (calculate_band_indices dc).1 "ndvi"
      = some (indexFormula nir red) ∧
    (∀ i j x y, sample nir i j = some x → sample red i j = some y →
      sample (indexFormula nir red) i j
        = some (EVal.div (EVal.sub x y) (EVal.add x y))) ∧
    indexFormula [[EVal.fin (1/2)]] [[EVal.fin (1/10)]]
      = [[EVal.fin (2/3)]] ∧
    |(2 : ℚ)/3 - 6667/10000| ≤ 1/10000 := by
  refine ⟨calculate_band_indices_ndvi dc nir red hn hr, ?_, ?_, ?_⟩
  · intro i j x y hx hy
    rw [indexFormula_eq_map2]
    exact sample_map2 _ nir red i j x y hx hy
  · norm_num [indexFormula, bandDiv, bandSub, bandAdd, map2, EVal.div,
      EVal.sub, EVal.add]
  · rw [abs_le]
    constructor <;> norm_num

/-- Witness for C2 at a concrete two-band stack. -/
theorem ndvi_matches_spec_witness :
    getBand (calculate_band_indices [("nir", [[EVal.fin 3]]),
        ("red", [[EVal.fin 1]])]).1 "ndvi"
      = some (indexFormula [[EVal.fin 3]] [[EVal.fin 1]]) ∧
    |(2 : ℚ)/3 - 6667/10000| ≤ 1/10000 := by
  have h := ndvi_matches_spec [("nir", [[EVal.fin 3]]), ("red", [[EVal.fin 1]])]
    [[EVal.fin 3]] [[EVal.fin 1]] rfl rfl rfl
  exact ⟨h.1, h.2.2.2⟩

/-! ### Claim C3 -/

/-- C3 as stated is false: a stack containing `green` and `nir` of
identical shape but no `red` makes `calculate_band_indices` fail at the
first line (the NDVI line accesses `red` before the NDWI line runs), so
no `ndwi` layer is attached at all. -/
theorem ndwi_requires_red_counterexample :
    getBand (calculate_band_indices [("green", [[EVal.fin 1]]),
        ("nir", [[EVal.fin 2]])]).1 "ndwi" = none ∧
    (calculate_band_indices [("green", [[EVal.fin 1]]),
        ("nir", [[EVal.fin 2]])]).2
      = some (IndexError.missingBand "red") := by
  decide

/-- C3 (amended): for every stack containing `green` and `nir` of
identical shape — and also `red`, which the preceding NDVI line
requires — the attached `ndwi` layer equals elementwise
`(green - nir) / (green + nir)`; wherever the two bands hold the same
nonzero finite value the sample is exactly `0`, e.g. `0.2` and `0.2`
give `0.0`. -/
theorem ndwi_matches_spec (dc : Stack) (nir red green : Band)
    (hn : getBand dc "nir" = some nir) (hr : getBand dc "red" = some red)
    (hg : getBand dc "green" = some green)
    (hsh : shape green = shape nir) :
    getBand (calculate_band_indices dc).1 "ndwi"
      = some (indexFormula green nir) ∧
    (∀ q : ℚ, q ≠ 0 →
      EVal.div (EVal.sub (EVal.fin q) (EVal.fin q))
        (EVal.add (EVal.fin q) (EVal.fin q)) = EVal.fin 0) ∧
    indexFormula [[EVal.fin (1/5)]] [[EVal.fin (1/5)]] = [[EVal.fin 0]] := by
  refine ⟨calculate_band_indices_ndwi dc nir red green hn hr hg,
    equal_band_pointwise, ?_⟩
  norm_num [indexFormula, bandDiv, bandSub, bandAdd, map2, EVal.div,
    EVal.sub, EVal.add]

/-- Witness for C3's amended theorem at a concrete three-band stack. -/
theorem ndwi_matches_spec_witness :
    getBand (calculate_band_indices [("nir", [[EVal.fin 2]]),
        ("red", [[EVal.fin 1]]), ("green", [[EVal.fin 2]])]).1 "ndwi"
      = some (indexFormula [[EVal.fin 2]] [[EVal.fin 2]]) ∧
    indexFormula [[EVal.fin (1/5)]] [[EVal.fin (1/5)]] = [[EVal.fin 0]] := by
  have h := ndwi_matches_spec [("nir", [[EVal.fin 2]]), ("red", [[EVal.fin 1]]),
    ("green", [[EVal.fin 2]])] [[EVal.fin 2]] [[EVal.fin 1]] [[EVal.fin 2]]
    rfl rfl rfl rfl
  exact ⟨h.1, h.2.2⟩

/-! ### Claim C4 -/

/-- C4 as stated is false in its quantifier: a stack containing `green`,
`nir` and `swir1` of identical shape but no `red` fails at the NDVI
line, so no `mndwi` layer is attached. -/
theorem mndwi_requires_red_counterexample :
    getBand (calculate_band_indices [("green", [[EVal.fin 1]]),
        ("nir", [[EVal.fin 2]]), ("swir1", [[EVal.fin 3]])]).1 "mndwi"
      = none ∧
    (calculate_band_indices [("green", [[EVal.fin 1]]),
        ("nir", [[EVal.fin 2]]), ("swir1", [[EVal.fin 3]])]).2
      = some (IndexError.missingBand "red") := by
  decide

/-- C4 (amended): for every stack containing `green`, `nir` and `swir1`
of identical shape — and also `red`, which the preceding NDVI line
requires — the attached `mndwi` layer equals elementwise
`(green - swir1) / (nir + swir1)`: the denominator combines NIR and
SWIR1, not the canonical Green + SWIR1. -/
theorem mndwi_matches_spec (dc : Stack) (nir red green swir1 : Band)
    (hn : getBand dc "nir" = some nir) (hr : getBand dc "red" = some red)
    (hg : getBand dc "green" = some green)
    (hs : getBand dc "swir1" = some swir1)
    (hsh1 : shape green = shape swir1) (hsh2 : shape nir = shape swir1) :
    getBand (calculate_band_indices dc).1 "mndwi"
      = some (bandDiv (bandSub green swir1) (bandAdd nir swir1)) ∧
    (∀ i j x y z, sample green i j = some x → sample swir1 i j = some y →
      sample nir i j = some z →
      sample (bandDiv (bandSub green swir1) (bandAdd nir swir1)) i j
        = some (EVal.div (EVal.sub x y) (EVal.add z y))) := by
  constructor
  · rw [calculate_band_indices_success dc nir red green swir1 hn hr hg hs]
    exact getBand_setBand_self ..
  · intro i j x y z hx hy hz
    exact sample_map2 EVal.div _ _ i j _ _
      (sample_map2 EVal.sub green swir1 i j x y hx hy)
      (sample_map2 EVal.add nir swir1 i j z y hz hy)

/-- Witness for C4's amended theorem at a concrete four-band stack. -/
theorem mndwi_matches_spec_witness :
    getBand (calculate_band_indices [("nir", [[EVal.fin 2]]),
        ("red", [[EVal.fin 1]]), ("green", [[EVal.fin 5]]),
        ("swir1", [[EVal.fin 1]])]).1 "mndwi"
      = some (bandDiv (bandSub [[EVal.fin 5]] [[EVal.fin 1]])
          (bandAdd [[EVal.fin 2]] [[EVal.fin 1]])) ∧
    sample (bandDiv (bandSub [[EVal.fin 5]] [[EVal.fin 1]])
        (bandAdd [[EVal.fin 2]] [[EVal.fin 1]])) 0 0
      = some (EVal.div (EVal.sub (EVal.fin 5) (EVal.fin 1))
          (EVal.add (EVal.fin 2) (EVal.fin 1))) := by
  have h := mndwi_matches_spec [("nir", [[EVal.fin 2]]), ("red", [[EVal.fin 1]]),
    ("green", [[EVal.fin 5]]), ("swir1", [[EVal.fin 1]])]
    [[EVal.fin 2]] [[EVal.fin 1]] [[EVal.fin 5]] [[EVal.fin 1]]
    rfl rfl rfl rfl rfl rfl
  exact ⟨h.1, h.2 0 0 _ _ _ rfl rfl rfl⟩

/-! ### Claim C5 -/

/-- C5: `computeIndex` fails with a ShapeMismatch condition whenever the
two bands do not share shape, and with a MissingBand condition whenever
either band name is absent from the stack; the error is returned in
place of a result stack, so no index computation or attachment has
proceeded. -/
theorem computeIndex_error_conditions (stack : Stack)
    (idx bandA bandB : String) :
    (getBand stack bandA = none →
      computeIndex stack idx bandA bandB
        = Except.error (IndexError.missingBand bandA)) ∧
    (∀ a, getBand stack bandA = some a → getBand stack bandB = none →
      computeIndex stack idx bandA bandB
        = Except.error (IndexError.missingBand bandB)) ∧
    (∀ a b, getBand stack bandA = some a → getBand stack bandB = some b →
      shape a ≠ shape b →
      computeIndex stack idx bandA bandB
        = Except.error (IndexError.shapeMismatch bandA bandB)) := by
  refine ⟨fun h => ?_, fun a h1 h2 => ?_, fun a b h1 h2 h3 => ?_⟩
  · unfold computeIndex
    simp only [h]
  · unfold computeIndex
    simp only [h1, h2]
  · unfold computeIndex
    simp only [h1, h2, if_neg h3]

/-- Witness for C5: each error condition exercised at a concrete stack. -/
theorem computeIndex_error_conditions_witness :
    computeIndex [] "x" "a" "b"
      = Except.error (IndexError.missingBand "a") ∧
    computeIndex [("a", [[EVal.fin 1]])] "x" "a" "b"
      = Except.error (IndexError.missingBand "b") ∧
    computeIndex [("a", [[EVal.fin 1]]), ("b", [[]])] "x" "a" "b"
      = Except.error (IndexError.shapeMismatch "a" "b") :=
  ⟨(computeIndex_error_conditions [] "x" "a" "b").1 rfl,
    (computeIndex_error_conditions [("a", [[EVal.fin 1]])] "x" "a" "b").2.1
      [[EVal.fin 1]] rfl rfl,
    (computeIndex_error_conditions [("a", [[EVal.fin 1]]), ("b", [[]])]
        "x" "a" "b").2.2 [[EVal.fin 1]] [[]] rfl rfl (by decide)⟩

/-! ### Claim C6 -/

/-- C6 as stated is false: two equal-shape bands whose elementwise sum is
nonzero at every sample can still produce a value outside `[-1, 1]` —
samples `2` and `-1` have sum `1` but quotient `3`. -/
theorem index_value_outside_unit_interval :
    shape [[EVal.fin 2]] = shape [[EVal.fin (-1)]] ∧
    allSamples (fun v => v ≠ EVal.fin 0)
      (bandAdd [[EVal.fin 2]] [[EVal.fin (-1)]]) ∧
    ¬ allSamples EVal.inUnitInterval
      (indexFormula [[EVal.fin 2]] [[EVal.fin (-1)]]) := by
  refine ⟨rfl, ?_, ?_⟩
  · have e : bandAdd [[EVal.fin 2]] [[EVal.fin (-1)]] = [[EVal.fin 1]] := by
      norm_num [bandAdd, map2, EVal.add]
    rw [e]
    exact allSamples_singleton _ _ (by simp)
  · intro hall
    have e : indexFormula [[EVal.fin 2]] [[EVal.fin (-1)]] = [[EVal.fin 3]] := by
      norm_num [indexFormula, bandDiv, bandSub, bandAdd, map2, EVal.div,
        EVal.sub, EVal.add]
    rw [e] at hall
    have h3 := hall [EVal.fin 3] (List.mem_singleton.mpr rfl) (EVal.fin 3)
      (List.mem_singleton.mpr rfl)
    simp only [EVal.inUnitInterval] at h3
    norm_num at h3

/-- C6 (amended): for bands whose samples are all finite nonnegative
reflectance values (as the spec's "physically valid reflectance inputs"
qualifier requires) with nonzero elementwise sum, every sample of the
normalized-difference output lies in `[-1, 1]`. -/
theorem index_values_in_unit_interval (a b : Band)
    (hA : allSamples EVal.finNonneg a) (hB : allSamples EVal.finNonneg b)
    (hS : allSamples (fun v => v ≠ EVal.fin 0) (bandAdd a b)) :
    allSamples EVal.inUnitInterval (indexFormula a b) := by
  rw [indexFormula_eq_map2]
  exact map2_allSamples _ EVal.add EVal.finNonneg EVal.finNonneg
    (fun v => v ≠ EVal.fin 0) EVal.inUnitInterval unit_interval_pointwise
    a b hA hB hS

/-- Witness for C6's amended theorem on concrete one-sample bands. -/
theorem index_values_in_unit_interval_witness :
    allSamples (fun v => v ≠ EVal.fin 0)
      (bandAdd [[EVal.fin 3]] [[EVal.fin 1]]) ∧
    allSamples EVal.inUnitInterval (indexFormula [[EVal.fin 3]] [[EVal.fin 1]]) := by
  have hS : allSamples (fun v => v ≠ EVal.fin 0)
      (bandAdd [[EVal.fin 3]] [[EVal.fin 1]]) := by
    have e : bandAdd [[EVal.fin 3]] [[EVal.fin 1]] = [[EVal.fin 4]] := by
      norm_num [bandAdd, map2, EVal.add]
    rw [e]
    exact allSamples_singleton _ _ (by simp)
  exact ⟨hS, index_values_in_unit_interval [[EVal.fin 3]] [[EVal.fin 1]]
    (allSamples_singleton _ _ (by norm_num [EVal.finNonneg]))
    (allSamples_singleton _ _ (by norm_num [EVal.finNonneg])) hS⟩

/-! ### Claim C7 -/

/-- C7: at every sample position where the two bands sum to zero, the
index computation does not fail and substitutes no default: the call
succeeds with the full formula layer attached, the sample at that
position is the division of the difference by the zero sum, and that
value is a signed infinity or not-a-number; every other sample is the
same elementwise formula. -/
theorem computeIndex_zero_denominator (stack : Stack)
    (idx bandA bandB : String) (a b : Band)
    (ha : getBand stack bandA = some a) (hb : getBand stack bandB = some b)
    (hsh : shape a = shape b) (i j : Nat) (x y : EVal)
    (hx : sample a i j = some x) (hy : sample b i j = some y)
    (hzero : EVal.add x y = EVal.fin 0) :
    computeIndex stack idx bandA bandB
      = Except.ok (setBand stack idx (indexFormula a b)) ∧
    sample (indexFormula a b) i j
      = some (EVal.div (EVal.sub x y) (EVal.add x y)) ∧
    EVal.nonFinite (EVal.div (EVal.sub x y) (EVal.add x y)) := by
  refine ⟨?_, ?_, zero_sum_pointwise x y hzero⟩
  · unfold computeIndex
    simp only [ha, hb]
    rw [if_pos hsh]
  · rw [indexFormula_eq_map2]
    exact sample_map2 _ a b i j x y hx hy

/-- Witness for C7 at a concrete stack whose single sample pair sums to
zero. -/
theorem computeIndex_zero_denominator_witness :
    computeIndex [("a", [[EVal.fin 1]]), ("b", [[EVal.fin (-1)]])] "x" "a" "b"
      = Except.ok (setBand [("a", [[EVal.fin 1]]), ("b", [[EVal.fin (-1)]])]
          "x" (indexFormula [[EVal.fin 1]] [[EVal.fin (-1)]])) ∧
    EVal.nonFinite (EVal.div (EVal.sub (EVal.fin 1) (EVal.fin (-1)))
      (EVal.add (EVal.fin 1) (EVal.fin (-1)))) := by
  have h := computeIndex_zero_denominator
    [("a", [[EVal.fin 1]]), ("b", [[EVal.fin (-1)]])] "x" "a" "b"
    [[EVal.fin 1]] [[EVal.fin (-1)]] rfl rfl rfl 0 0 (EVal.fin 1)
    (EVal.fin (-1)) rfl rfl (by norm_num [EVal.add])
  exact ⟨h.1, h.2.2⟩

/-! ### Claim C8 -/

/-- C8: on a stack containing `nir`, `red`, `green` and `swir1` of one
common shape, `calculate_band_indices` succeeds and attaches exactly the
three layers `ndvi`, `ndwi`, `mndwi`, each of the input bands' shape;
every layer under any other name — the input bands and any pre-existing
layer such as `blue` — is left with unchanged value, and none is
removed. -/
theorem calculate_band_indices_frame (dc : Stack)
    (nir red green swir1 : Band)
    (hn : getBand dc "nir" = some nir) (hr : getBand dc "red" = some red)
    (hg : getBand dc "green" = some green)
    (hs : getBand dc "swir1" = some swir1)
    (sh1 : shape red = shape nir) (sh2 : shape green = shape nir)
    (sh3 : shape swir1 = shape nir) :
    (calculate_band_indices dc).2 = none ∧
    getBand (calculate_band_indices dc).1 "ndvi"
      = some (indexFormula nir red) ∧
    getBand (calculate_band_indices dc).1 "ndwi"
      = some (indexFormula green nir) ∧
    getBand (calculate_band_indices dc).1 "mndwi"
      = some (bandDiv (bandSub green swir1) (bandAdd nir swir1)) ∧
    shape (indexFormula nir red) = shape nir ∧
    shape (indexFormula green nir) = shape nir ∧
    shape (bandDiv (bandSub green swir1) (bandAdd nir swir1)) = shape nir ∧
    (∀ k, k ≠ "ndvi" → k ≠ "ndwi" → k ≠ "mndwi" →
      getBand (calculate_band_indices dc).1 k = getBand dc k) := by
  have h := calculate_band_indices_success dc nir red green swir1 hn hr hg hs
  have shsub : shape (bandSub green swir1) = shape nir := by
    unfold bandSub
    rw [shape_map2 _ green swir1 (sh2.trans sh3.symm)]
    exact sh2
  have shadd : shape (bandAdd nir swir1) = shape nir :=
    shape_map2 _ nir swir1 sh3.symm
  refine ⟨by rw [h], ?_, ?_, ?_, ?_, ?_, ?_, ?_⟩
  · rw [h]
    simp +decide only [getBand_setBand_ne, getBand_setBand_self]
  · rw [h]
    simp +decide only [getBand_setBand_ne, getBand_setBand_self]
  · rw [h]
    simp +decide only [getBand_setBand_ne, getBand_setBand_self]
  · rw [indexFormula_eq_map2]
    exact shape_map2 _ nir red sh1.symm
  · rw [indexFormula_eq_map2]
    rw [shape_map2 _ green nir sh2]
    exact sh2
  · unfold bandDiv
    rw [shape_map2 _ _ _ (shsub.trans shadd.symm)]
    exact shsub
  · intro k hk1 hk2 hk3
    rw [h]
    rw [getBand_setBand_ne hk3, getBand_setBand_ne hk2, getBand_setBand_ne hk1]

/-- Witness for C8 at a concrete stack carrying an extra `blue` layer. -/
theorem calculate_band_indices_frame_witness :
    (calculate_band_indices [("blue", [[EVal.fin 9]]), ("nir", [[EVal.fin 2]]),
        ("red", [[EVal.fin 1]]), ("green", [[EVal.fin 3]]),
        ("swir1", [[EVal.fin 4]])]).2 = none ∧
    getBand (calculate_band_indices [("blue", [[EVal.fin 9]]),
        ("nir", [[EVal.fin 2]]), ("red", [[EVal.fin 1]]),
        ("green", [[EVal.fin 3]]), ("swir1", [[EVal.fin 4]])]).1 "blue"
      = some [[EVal.fin 9]] := by
  have h := calculate_band_indices_frame [("blue", [[EVal.fin 9]]),
    ("nir", [[EVal.fin 2]]), ("red", [[EVal.fin 1]]),
    ("green", [[EVal.fin 3]]), ("swir1", [[EVal.fin 4]])]
    [[EVal.fin 2]] [[EVal.fin 1]] [[EVal.fin 3]] [[EVal.fin 4]]
    rfl rfl rfl rfl rfl rfl rfl
  refine ⟨h.1, ?_⟩
  rw [h.2.2.2.2.2.2.2 "blue" (by decide) (by decide) (by decide)]
  rfl

/-! ### Claim C9 -/

/-- C9: the index computation is idempotent when the index name differs
from its two source bands (the derived layer never feeds back into its
own recomputation): a second call with the same name deterministically
overwrites the layer with the same value, so the stack after two calls
equals the stack after one. -/
theorem computeIndex_idempotent (stack s1 : Stack)
    (idx bandA bandB : String) (hA : idx ≠ bandA) (hB : idx ≠ bandB)
    (h : computeIndex stack idx bandA bandB = Except.ok s1) :
    computeIndex s1 idx bandA bandB = Except.ok s1 := by
  unfold computeIndex at h ⊢
  rcases ha : getBand stack bandA with _ | a
  · rw [ha] at h
    exact absurd h (by simp)
  rcases hb : getBand stack bandB with _ | b
  · simp only [ha, hb] at h
    exact absurd h (by simp)
  simp only [ha, hb] at h
  by_cases hsh : shape a = shape b
  · rw [if_pos hsh] at h
    simp only [Except.ok.injEq] at h
    subst h
    have ha1 : getBand (setBand stack idx (indexFormula a b)) bandA = some a := by
      rw [getBand_setBand_ne (Ne.symm hA)]
      exact ha
    have hb1 : getBand (setBand stack idx (indexFormula a b)) bandB = some b := by
      rw [getBand_setBand_ne (Ne.symm hB)]
      exact hb
    simp only [ha1, hb1, if_pos hsh, setBand_setBand_self]
  · rw [if_neg hsh] at h
    exact absurd h (by simp)

/-- Witness for C9: recomputing `x` from `a` and `b` on a stack already
holding the derived `x` layer returns that stack unchanged. -/
theorem computeIndex_idempotent_witness :
    computeIndex [("a", [[EVal.fin 1]]), ("b", [[EVal.fin 2]]),
        ("x", indexFormula [[EVal.fin 1]] [[EVal.fin 2]])] "x" "a" "b"
      = Except.ok [("a", [[EVal.fin 1]]), ("b", [[EVal.fin 2]]),
        ("x", indexFormula [[EVal.fin 1]] [[EVal.fin 2]])] :=
  computeIndex_idempotent [("a", [[EVal.fin 1]]), ("b", [[EVal.fin 2]])]
    [("a", [[EVal.fin 1]]), ("b", [[EVal.fin 2]]),
      ("x", indexFormula [[EVal.fin 1]] [[EVal.fin 2]])] "x" "a" "b"
    (by decide) (by decide) rfl

/-! ### Claim C10 -/

/-- C10: the three layers attached by `calculate_band_indices` depend
only on the bands `nir`, `red`, `green` and `swir1`: two stacks that
agree on those four bands receive identical `ndvi`, `ndwi` and `mndwi`
values, whatever their other layers are. -/
theorem indices_depend_only_on_bands (s1 s2 : Stack)
    (nir red green swir1 : Band)
    (h1n : getBand s1 "nir" = some nir) (h2n : getBand s2 "nir" = some nir)
    (h1r : getBand s1 "red" = some red) (h2r : getBand s2 "red" = some red)
    (h1g : getBand s1 "green" = some green)
    (h2g : getBand s2 "green" = some green)
    (h1s : getBand s1 "swir1" = some swir1)
    (h2s : getBand s2 "swir1" = some swir1) :
    getBand (calculate_band_indices s1).1 "ndvi"
      = getBand (calculate_band_indices s2).1 "ndvi" ∧
    getBand (calculate_band_indices s1).1 "ndwi"
      = getBand (calculate_band_indices s2).1 "ndwi" ∧
    getBand (calculate_band_indices s1).1 "mndwi"
      = getBand (calculate_band_indices s2).1 "mndwi" := by
  have e1 := calculate_band_indices_success s1 nir red green swir1 h1n h1r h1g h1s
  have e2 := calculate_band_indices_success s2 nir red green swir1 h2n h2r h2g h2s
  rw [e1, e2]
  refine ⟨?_, ?_, ?_⟩ <;>
    simp +decide only [getBand_setBand_ne, getBand_setBand_self]

/-- Witness for C10: two stacks sharing the four input bands but
differing on `blue` get the same derived layers. -/
theorem indices_depend_only_on_bands_witness :
    getBand (calculate_band_indices [("blue", [[EVal.fin 9]]),
        ("nir", [[EVal.fin 2]]), ("red", [[EVal.fin 1]]),
        ("green", [[EVal.fin 3]]), ("swir1", [[EVal.fin 4]])]).1 "ndvi"
      = getBand (calculate_band_indices [("nir", [[EVal.fin 2]]),
        ("red", [[EVal.fin 1]]), ("green", [[EVal.fin 3]]),
        ("swir1", [[EVal.fin 4]])]).1 "ndvi" ∧
    getBand (calculate_band_indices [("blue", [[EVal.fin 9]]),
        ("nir", [[EVal.fin 2]]), ("red", [[EVal.fin 1]]),
        ("green", [[EVal.fin 3]]), ("swir1", [[EVal.fin 4]])]).1 "ndwi"
      = getBand (calculate_band_indices [("nir", [[EVal.fin 2]]),
        ("red", [[EVal.fin 1]]), ("green", [[EVal.fin 3]]),
        ("swir1", [[EVal.fin 4]])]).1 "ndwi" ∧
    getBand (calculate_band_indices [("blue", [[EVal.fin 9]]),
        ("nir", [[EVal.fin 2]]), ("red", [[EVal.fin 1]]),
        ("green", [[EVal.fin 3]]), ("swir1", [[EVal.fin 4]])]).1 "mndwi"
      = getBand (calculate_band_indices [("nir", [[EVal.fin 2]]),
        ("red", [[EVal.fin 1]]), ("green", [[EVal.fin 3]]),
        ("swir1", [[EVal.fin 4]])]).1 "mndwi" :=
  indices_depend_only_on_bands
    [("blue", [[EVal.fin 9]]), ("nir", [[EVal.fin 2]]), ("red", [[EVal.fin 1]]),
      ("green", [[EVal.fin 3]]), ("swir1", [[EVal.fin 4]])]
    [("nir", [[EVal.fin 2]]), ("red", [[EVal.fin 1]]),
      ("green", [[EVal.fin 3]]), ("swir1", [[EVal.fin 4]])]
    [[EVal.fin 2]] [[EVal.fin 1]] [[EVal.fin 3]] [[EVal.fin 4]]
    rfl rfl rfl rfl rfl rfl rfl rfl
